import Mathlib

/-!
Verification development for the Culinary Companion repository.

The definitions below are a shallow embedding of the TypeScript source:
  * `src/types.ts` (data model),
  * `src/components/ShoppingList.tsx` (`shoppingList` memo: demand
    aggregation, inventory netting, replenishment injection),
  * `src/components/InventoryManager.tsx` (`addItem`),
  * `src/components/RecipeCard.tsx` (`checkCookability`),
  * `src/components/SettingsManager.tsx` (`removeCategory`),
  * `src/utils/storage.ts` (`loadFromLocalStorage`),
  * `src/App.tsx` (`INITIAL_DATA` and the startup seeding rule).

Conventions: JS numeric amounts are modeled as integers (`ℤ`); all inputs
relevant to the claims are integral.  An optional JS boolean field read
under truthiness (`untrackedAmount`) is modeled as `Bool` with `undefined`
collapsed to `false`.  JS `Set` objects are modeled as `List String` with
`contains`.  `String.prototype.toLowerCase` is modeled as character-wise
ASCII lowercasing (`normName`) and `String.prototype.trim` as `trimName`.
-/

namespace CulinaryCompanion

/-- Stock status of an inventory item (src/types.ts `stockStatus`). -/
inductive StockStatus where
  | inStock
  | lowStock
  | outOfStock
deriving DecidableEq

/-- src/types.ts `interface Ingredient`.  `category` and `stockStatus` are
optional fields; `untrackedAmount` is an optional boolean read only under
truthiness, hence a `Bool`. -/
structure Ingredient where
  id : String
  name : String
  amount : ℤ
  unit : String
  category : Option String
  untrackedAmount : Bool
  stockStatus : Option StockStatus
deriving DecidableEq

/-- src/types.ts `interface RecipeIngredient extends Ingredient`. -/
structure RecipeIngredient extends Ingredient where
  optional : Bool
deriving DecidableEq

/-- src/types.ts `interface Recipe`. -/
structure Recipe where
  id : String
  name : String
  description : String
  ingredients : List RecipeIngredient
  instructions : String
  tags : List String
  prepTime : Option ℤ
deriving DecidableEq

/-- src/types.ts `interface AppState`. -/
structure AppState where
  recipes : List Recipe
  inventory : List Ingredient
  customTags : List String
  categories : List String
deriving DecidableEq

/-- One entry of the meal plan (`selectedRecipes` state in ShoppingList.tsx):
a recipe id together with a multiplier. -/
structure PlanEntry where
  recipeId : String
  count : Nat
deriving DecidableEq

/-- A line of the computed shopping list (`finalItems` elements in
ShoppingList.tsx). -/
structure OutItem where
  name : String
  amount : ℤ
  unit : String
  category : String
deriving DecidableEq

/-- The value stored in the `needed` record of ShoppingList.tsx:
accumulated amount plus the unit/category captured at first occurrence. -/
structure DemandData where
  amount : ℤ
  unit : String
  category : String
deriving DecidableEq

/-- JS `s.toLowerCase()`: character-wise ASCII lowercasing. -/
def normName (s : String) : String :=
  ⟨s.data.map Char.toLower⟩

/-- JS `s.trim()`: drop leading and trailing whitespace. -/
def trimName (s : String) : String :=
  ⟨((s.data.dropWhile Char.isWhitespace).reverse.dropWhile Char.isWhitespace).reverse⟩

/-- JS `ing.category || 'Other'`: an absent or empty category falls back to
the string `Other`. -/
def categoryOr (c : Option String) : String :=
  match c with
  | none => "Other"
  | some s => if s = "" then "Other" else s

/-- JS `item.unit || 'unit'`: an empty unit string falls back to `unit`. -/
def unitOr (u : String) : String :=
  if u = "" then "unit" else u

/-- ShoppingList.tsx lines 61-67: fold one recipe ingredient into the
`needed` record (an insertion-ordered map keyed by the lowercased
ingredient name).  The unit and category are captured when the key is
first inserted; afterwards only the amount accumulates. -/
def addIngredientDemand (count : ℤ) (needed : List (String × DemandData))
    (ing : RecipeIngredient) : List (String × DemandData) :=
  let key := normName ing.name
  if (needed.find? (fun kv => decide (kv.1 = key))).isSome then
    needed.map (fun kv =>
      if kv.1 = key then (kv.1, { kv.2 with amount := kv.2.amount + ing.amount * count }) else kv)
  else
    needed ++ [(key, { amount := ing.amount * count, unit := ing.unit,
                       category := categoryOr ing.category })]

/-- ShoppingList.tsx lines 57-68: process one plan entry.  A plan entry
whose recipe id resolves to no recipe is skipped. -/
def planStep (recipes : List Recipe) (needed : List (String × DemandData))
    (p : PlanEntry) : List (String × DemandData) :=
  match recipes.find? (fun r => decide (r.id = p.recipeId)) with
  | none => needed
  | some r => r.ingredients.foldl (addIngredientDemand (p.count : ℤ)) needed

/-- The aggregated demand mapping (`needed` after the first forEach of the
`shoppingList` memo). -/
def aggregateDemand (plan : List PlanEntry) (recipes : List Recipe) :
    List (String × DemandData) :=
  plan.foldl (planStep recipes) []

/-- ShoppingList.tsx line 73: first inventory item whose lowercased name
equals the demand key. -/
def matchInventory (inventory : List Ingredient) (key : String) : Option Ingredient :=
  inventory.find? (fun i => decide (normName i.name = key))

/-- ShoppingList.tsx line 76: `inStock?.untrackedAmount && inStock.stockStatus !== 'out-of-stock'`. -/
def isUntrackedSatisfied (i : Ingredient) : Bool :=
  i.untrackedAmount && decide (¬ i.stockStatus = some StockStatus.outOfStock)

/-- ShoppingList.tsx lines 72-84, decision for one aggregated demand entry:
skip it when the matched inventory item is untracked and not out of stock;
otherwise subtract the matched numeric amount (zero when no match), floor
at zero, and emit the line only when the remainder is strictly positive. -/
def nettingFn (inventory : List Ingredient) (kv : String × DemandData) : Option OutItem :=
  let inStock := matchInventory inventory kv.1
  if (inStock.map isUntrackedSatisfied).getD false then none
  else
    let stockAmount : ℤ := (inStock.map Ingredient.amount).getD 0
    let finalAmount : ℤ := max 0 (kv.2.amount - stockAmount)
    if 0 < finalAmount then some ⟨kv.1, finalAmount, kv.2.unit, kv.2.category⟩ else none

/-- `finalItems` after the netting forEach (ShoppingList.tsx lines 71-84):
each aggregated entry contributes at most one line, in order. -/
def nettedItems (plan : List PlanEntry) (recipes : List Recipe)
    (inventory : List Ingredient) : List OutItem :=
  (aggregateDemand plan recipes).filterMap (nettingFn inventory)

/-- The replenishment line built for an inventory item
(ShoppingList.tsx lines 91 and 96): original name, quantity 1, the item's
own unit and category with JS falsy fallbacks. -/
def replenishEntry (i : Ingredient) : OutItem :=
  ⟨i.name, 1, unitOr i.unit, categoryOr i.category⟩

/-- ShoppingList.tsx lines 89 and 94: `finalItems.find(i => i.name.toLowerCase() === item.name.toLowerCase())`. -/
def hasNameMatch (items : List OutItem) (name : String) : Bool :=
  (items.find? (fun o => decide (normName o.name = normName name))).isSome

/-- ShoppingList.tsx lines 87-99: process one inventory item of the
replenishment forEach against the accumulated list. -/
def replenishStep (repl : List String) (acc : List OutItem) (item : Ingredient) :
    List OutItem :=
  if item.stockStatus = some StockStatus.outOfStock then
    if hasNameMatch acc item.name then acc else acc ++ [replenishEntry item]
  else if item.stockStatus = some StockStatus.lowStock ∧ repl.contains item.id = true then
    if hasNameMatch acc item.name then acc else acc ++ [replenishEntry item]
  else acc

/-- The full `shoppingList` memo of ShoppingList.tsx: demand aggregation,
netting against inventory, then replenishment injection.  `repl` models
the `replenishItems` id set. -/
def shoppingList (plan : List PlanEntry) (recipes : List Recipe)
    (inventory : List Ingredient) (repl : List String) : List OutItem :=
  inventory.foldl (replenishStep repl) (nettedItems plan recipes inventory)

/-- The new-item form state of InventoryManager.tsx (no id yet). -/
structure NewItem where
  name : String
  amount : ℤ
  unit : String
  category : String
  untrackedAmount : Bool
  stockStatus : StockStatus
deriving DecidableEq

/-- InventoryManager.tsx lines 33-43: how an existing inventory item is
updated when the incoming item's name matches it. -/
def updateExisting (newItem : NewItem) (ex : Ingredient) : Ingredient :=
  if newItem.untrackedAmount then
    { ex with untrackedAmount := true, stockStatus := some newItem.stockStatus }
  else if ex.untrackedAmount then
    { ex with untrackedAmount := false, amount := newItem.amount }
  else
    { ex with amount := ex.amount + newItem.amount }

/-- Update the first list element satisfying `p` by `g`; `none` when no
element matches (the `findIndex`/mutate pattern of `addItem`). -/
def mergeFirst (p : Ingredient → Bool) (g : Ingredient → Ingredient) :
    List Ingredient → Option (List Ingredient)
  | [] => none
  | i :: rest => if p i then some (g i :: rest) else (mergeFirst p g rest).map (fun l => i :: l)

/-- The ingredient appended when no name match exists
(InventoryManager.tsx line 46, `{ ...newItem, id: uuidv4() }`); the fresh
uuid is passed in as `newId`. -/
def freshIngredient (newItem : NewItem) (newId : String) : Ingredient :=
  ⟨newId, newItem.name, newItem.amount, newItem.unit, some newItem.category,
   newItem.untrackedAmount, some newItem.stockStatus⟩

/-- InventoryManager.tsx `addItem` (lines 24-56), restricted to its effect
on the inventory list: empty (trimmed) names are rejected; otherwise the
first case-insensitive name match is merged in place, and with no match
the item is appended with a fresh id. -/
def addItem (inventory : List Ingredient) (newItem : NewItem) (newId : String) :
    List Ingredient :=
  if trimName newItem.name = "" then inventory
  else
    match mergeFirst (fun i => decide (normName i.name = normName newItem.name))
        (updateExisting newItem) inventory with
    | some updated => updated
    | none => inventory ++ [freshIngredient newItem newId]

/-- RecipeCard.tsx lines 13-22, decision for one recipe ingredient: it is
reported missing when it is not optional and either no inventory item
matches its name case-insensitively or the matched amount is strictly
below the required amount. -/
def missingFn (inventory : List Ingredient) (req : RecipeIngredient) : Option String :=
  let inStock := inventory.find? (fun i => decide (normName i.name = normName req.name))
  let insufficient : Bool :=
    match inStock with
    | none => true
    | some s => decide (s.amount < req.amount)
  if insufficient && !req.optional then some req.name else none

/-- RecipeCard.tsx `checkCookability`: the ordered list of missing
non-optional ingredient names. -/
def checkCookability (recipe : Recipe) (inventory : List Ingredient) : List String :=
  recipe.ingredients.filterMap (missingFn inventory)

/-- RecipeCard.tsx line 25: `missingIngredients.length === 0`. -/
def canCook (recipe : Recipe) (inventory : List Ingredient) : Bool :=
  (checkCookability recipe inventory).length == 0

/-- SettingsManager.tsx line 58: an inventory ingredient whose category
equals the deleted one is reassigned to `Other`. -/
def reassignToOther (category : String) (i : Ingredient) : Ingredient :=
  if i.category = some category then { i with category := some "Other" } else i

/-- SettingsManager.tsx line 56: the same reassignment for recipe
ingredients. -/
def reassignRecipeIngredient (category : String) (i : RecipeIngredient) : RecipeIngredient :=
  if i.category = some category then { i with category := some "Other" } else i

/-- SettingsManager.tsx `removeCategory` (lines 45-60): refuse when at most
one category remains (the UI also shows an alert, which has no state
effect); otherwise drop the category from the vocabulary and reassign
every recipe ingredient and inventory item carrying it to `Other`. -/
def removeCategory (s : AppState) (category : String) : AppState :=
  if s.categories.length ≤ 1 then s
  else
    { s with
      categories := s.categories.filter (fun c => decide (¬ c = category)),
      recipes := s.recipes.map (fun r =>
        { r with ingredients := r.ingredients.map (reassignRecipeIngredient category) }),
      inventory := s.inventory.map (reassignToOther category) }

/-- The parsed persisted document as far as `loadFromLocalStorage` reads
it: four independently optional fields (a falsy/absent field is `none`). -/
structure StoredDoc where
  recipes : Option (List Recipe)
  inventory : Option (List Ingredient)
  customTags : Option (List String)
  categories : Option (List String)
deriving DecidableEq

/-- storage.ts line 17 and 26: the seed tag vocabulary. -/
def defaultTags : List String :=
  ["Breakfast", "Lunch", "Dinner", "Snack", "Dessert", "Vegetarian", "Vegan", "Quick"]

/-- storage.ts line 9: `DEFAULT_CATEGORIES`. -/
def DEFAULT_CATEGORIES : List String :=
  ["Produce", "Dairy", "Meat", "Bakery", "Frozen", "Pantry", "Beverages", "Household", "Other"]

/-- The full default aggregate returned on absence or parse failure. -/
def defaultAppState : AppState :=
  { recipes := [], inventory := [], customTags := defaultTags,
    categories := DEFAULT_CATEGORIES }

/-- storage.ts `loadFromLocalStorage` (lines 11-38).  The stored document
is `none` when the key is absent, `some none` when `JSON.parse` fails (or
field access on the parsed value throws, caught by the same try block),
and `some (some doc)` when it parses; each present field is taken verbatim
and each absent field defaults independently. -/
def loadFromLocalStorage (stored : Option (Option StoredDoc)) : AppState :=
  match stored with
  | none => defaultAppState
  | some none => defaultAppState
  | some (some parsed) =>
    { recipes := parsed.recipes.getD []
      inventory := parsed.inventory.getD []
      customTags := parsed.customTags.getD defaultTags
      categories := parsed.categories.getD DEFAULT_CATEGORIES }

/-- App.tsx lines 37-73: the built-in `INITIAL_DATA` aggregate. -/
def INITIAL_DATA : AppState :=
  { recipes :=
      [{ id := "1", name := "Classic Margherita Pizza",
         description := "A simple yet delicious Italian classic with fresh basil and mozzarella.",
         ingredients :=
           [{ id := "i1", name := "Pizza Dough", amount := 1, unit := "pcs",
              category := some "Bakery", untrackedAmount := false, stockStatus := none,
              optional := false },
            { id := "i2", name := "Tomato Sauce", amount := 100, unit := "ml",
              category := some "Pantry", untrackedAmount := false, stockStatus := none,
              optional := false },
            { id := "i3", name := "Mozzarella", amount := 150, unit := "g",
              category := some "Dairy", untrackedAmount := false, stockStatus := none,
              optional := false },
            { id := "i4", name := "Fresh Basil", amount := 5, unit := "leaves",
              category := some "Produce", untrackedAmount := false, stockStatus := none,
              optional := false }],
         instructions := "1. Preheat oven to 250 C.\n2. Roll out dough.\n3. Spread sauce.\n4. Add cheese.\n5. Bake for 10-12 mins.\n6. Add fresh basil.",
         tags := ["Dinner", "Vegetarian"], prepTime := some 20 },
       { id := "2", name := "Avocado Toast",
         description := "The perfect healthy breakfast or snack.",
         ingredients :=
           [{ id := "i5", name := "Sourdough Bread", amount := 2, unit := "slices",
              category := some "Bakery", untrackedAmount := false, stockStatus := none,
              optional := false },
            { id := "i6", name := "Avocado", amount := 1, unit := "pcs",
              category := some "Produce", untrackedAmount := false, stockStatus := none,
              optional := false },
            { id := "i7", name := "Red Pepper Flakes", amount := 1, unit := "tsp",
              category := some "Pantry", untrackedAmount := false, stockStatus := none,
              optional := false }],
         instructions := "1. Toast the bread.\n2. Mash avocado with salt and pepper.\n3. Spread on toast.\n4. Sprinkle red pepper flakes.",
         tags := ["Breakfast", "Quick", "Vegan"], prepTime := some 5 }],
    inventory :=
      [{ id := "inv1", name := "Sourdough Bread", amount := 4, unit := "slices",
         category := some "Bakery", untrackedAmount := false, stockStatus := none },
       { id := "inv2", name := "Avocado", amount := 2, unit := "pcs",
         category := some "Produce", untrackedAmount := false, stockStatus := none }],
    customTags := defaultTags,
    categories := DEFAULT_CATEGORIES }

/-- App.tsx lines 78-81: the startup state is the loaded aggregate unless
its recipe list is empty, in which case the whole aggregate is replaced by
`INITIAL_DATA`. -/
def initialAppState (saved : AppState) : AppState :=
  if 0 < saved.recipes.length then saved else INITIAL_DATA

/-! Infrastructure lemmas. -/

lemma foldl_invariant {α β : Type} (f : β → α → β) (P : β → Prop)
    (h : ∀ b a, P b → P (f b a)) :
    ∀ (l : List α) (init : β), P init → P (l.foldl f init) := by
  intro l
  induction l with
  | nil => intro init hi; simpa using hi
  | cons x xs ih => intro init hi; exact ih (f init x) (h init x hi)

lemma keys_addIngredientDemand (c : ℤ) (acc : List (String × DemandData))
    (ing : RecipeIngredient) :
    ((addIngredientDemand c acc ing).map Prod.fst = acc.map Prod.fst) ∨
    ((addIngredientDemand c acc ing).map Prod.fst = acc.map Prod.fst ++ [normName ing.name] ∧
      normName ing.name ∉ acc.map Prod.fst) := by
  unfold addIngredientDemand
  by_cases h : (acc.find? (fun kv => decide (kv.1 = normName ing.name))).isSome
  · left
    simp only [h, if_true, List.map_map]
    refine List.map_congr_left ?_
    intro kv _
    by_cases hk : kv.1 = normName ing.name <;> simp [hk]
  · right
    have hnone : (acc.find? (fun kv => decide (kv.1 = normName ing.name))) = none :=
      Option.not_isSome_iff_eq_none.1 h
    refine ⟨?_, ?_⟩
    · rw [if_neg (by simp [hnone])]
      simp
    · intro hmem
      obtain ⟨kv, hkv, hfst⟩ := List.mem_map.1 hmem
      have h2 := List.find?_eq_none.1 hnone kv hkv
      simp only [decide_eq_true_eq] at h2
      exact h2 hfst

lemma key_mem_keys_addIngredientDemand {c : ℤ} {acc : List (String × DemandData)}
    {ing : RecipeIngredient} {k : String}
    (h : k ∈ (addIngredientDemand c acc ing).map Prod.fst) :
    k = normName ing.name ∨ k ∈ acc.map Prod.fst := by
  rcases keys_addIngredientDemand c acc ing with heq | ⟨heq, -⟩
  · right; rwa [heq] at h
  · rw [heq, List.mem_append] at h
    rcases h with h | h
    · right; exact h
    · left; simpa using h

lemma nodup_keys_addIngredientDemand {c : ℤ} {acc : List (String × DemandData)}
    {ing : RecipeIngredient} (h : (acc.map Prod.fst).Nodup) :
    ((addIngredientDemand c acc ing).map Prod.fst).Nodup := by
  rcases keys_addIngredientDemand c acc ing with heq | ⟨heq, hnotin⟩
  · rwa [heq]
  · rw [heq, List.nodup_append]
    refine ⟨h, List.nodup_singleton _, ?_⟩
    intro a ha hb
    simp only [List.mem_singleton] at hb
    subst hb
    exact hnotin ha

lemma nodup_keys_planStep {recipes : List Recipe} {acc : List (String × DemandData)}
    {p : PlanEntry} (h : (acc.map Prod.fst).Nodup) :
    ((planStep recipes acc p).map Prod.fst).Nodup := by
  unfold planStep
  split
  · exact h
  · rename_i r _
    exact foldl_invariant (addIngredientDemand (p.count : ℤ)) (fun l => (l.map Prod.fst).Nodup)
      (fun b a hb => nodup_keys_addIngredientDemand hb) r.ingredients acc h

lemma aggregate_keys_nodup (plan : List PlanEntry) (recipes : List Recipe) :
    ((aggregateDemand plan recipes).map Prod.fst).Nodup := by
  unfold aggregateDemand
  exact foldl_invariant (planStep recipes) (fun l => (l.map Prod.fst).Nodup)
    (fun b a hb => nodup_keys_planStep hb) plan [] (by simp)

lemma nodup_key_unique {α : Type} :
    ∀ {l : List (String × α)}, (l.map Prod.fst).Nodup →
      ∀ {k : String} {a b : α}, (k, a) ∈ l → (k, b) ∈ l → a = b := by
  intro l
  induction l with
  | nil => intro _ k a b ha; cases ha
  | cons x xs ih =>
    intro hnd k a b ha hb
    obtain ⟨xk, xv⟩ := x
    simp only [List.map_cons, List.nodup_cons] at hnd
    rcases List.mem_cons.1 ha with ha' | ha' <;> rcases List.mem_cons.1 hb with hb' | hb'
    · injection ha' with h1 h2
      injection hb' with h3 h4
      rw [h2, h4]
    · exfalso
      injection ha' with h1 h2
      exact hnd.1 (h1 ▸ List.mem_map.2 ⟨(k, b), hb', rfl⟩)
    · exfalso
      injection hb' with h1 h2
      exact hnd.1 (h1 ▸ List.mem_map.2 ⟨(k, a), ha', rfl⟩)
    · exact ih hnd.2 ha' hb'

lemma key_mem_keys_foldl_ings {c : ℤ} :
    ∀ (ings : List RecipeIngredient) (acc : List (String × DemandData)) (k : String),
      k ∈ ((ings.foldl (addIngredientDemand c) acc).map Prod.fst) →
      (∃ ing ∈ ings, k = normName ing.name) ∨ k ∈ acc.map Prod.fst := by
  intro ings
  induction ings with
  | nil => intro acc k h; exact Or.inr h
  | cons i is ih =>
    intro acc k h
    rcases ih (addIngredientDemand c acc i) k h with ⟨ing, hing, hk⟩ | h'
    · exact Or.inl ⟨ing, List.mem_cons_of_mem _ hing, hk⟩
    · rcases key_mem_keys_addIngredientDemand h' with hk | hk
      · exact Or.inl ⟨i, List.mem_cons_self .., hk⟩
      · exact Or.inr hk

lemma key_mem_keys_planStep {recipes : List Recipe} {acc : List (String × DemandData)}
    {p : PlanEntry} {k : String} (h : k ∈ (planStep recipes acc p).map Prod.fst) :
    (∃ r, recipes.find? (fun x => decide (x.id = p.recipeId)) = some r ∧
      ∃ ing ∈ r.ingredients, k = normName ing.name) ∨ k ∈ acc.map Prod.fst := by
  unfold planStep at h
  split at h
  · exact Or.inr h
  · rename_i r hr
    rcases key_mem_keys_foldl_ings r.ingredients acc k h with ⟨ing, hing, hk⟩ | h'
    · exact Or.inl ⟨r, hr, ing, hing, hk⟩
    · exact Or.inr h'

lemma key_mem_aggregateDemand {plan : List PlanEntry} {recipes : List Recipe}
    {k : String} (h : k ∈ (aggregateDemand plan recipes).map Prod.fst) :
    ∃ p ∈ plan, ∃ r, recipes.find? (fun x => decide (x.id = p.recipeId)) = some r ∧
      ∃ ing ∈ r.ingredients, k = normName ing.name := by
  suffices H : ∀ (ps : List PlanEntry) (acc : List (String × DemandData)),
      k ∈ ((ps.foldl (planStep recipes) acc).map Prod.fst) →
      (∃ p ∈ ps, ∃ r, recipes.find? (fun x => decide (x.id = p.recipeId)) = some r ∧
        ∃ ing ∈ r.ingredients, k = normName ing.name) ∨ k ∈ acc.map Prod.fst by
    rcases H plan [] h with h' | h'
    · exact h'
    · simp at h'
  intro ps
  induction ps with
  | nil => intro acc h'; exact Or.inr h'
  | cons p ps ih =>
    intro acc h'
    rcases ih (planStep recipes acc p) h' with ⟨q, hq, rest⟩ | h''
    · exact Or.inl ⟨q, List.mem_cons_of_mem _ hq, rest⟩
    · rcases key_mem_keys_planStep h'' with ⟨r, hr, rest⟩ | h'''
      · exact Or.inl ⟨p, List.mem_cons_self .., r, hr, rest⟩
      · exact Or.inr h'''

lemma nettingFn_eq_some {inventory : List Ingredient} {kv : String × DemandData}
    {o : OutItem} (h : nettingFn inventory kv = some o) :
    o = ⟨kv.1, max 0 (kv.2.amount - ((matchInventory inventory kv.1).map Ingredient.amount).getD 0),
         kv.2.unit, kv.2.category⟩ ∧
    ((matchInventory inventory kv.1).map isUntrackedSatisfied).getD false = false ∧
    0 < o.amount := by
  unfold nettingFn at h
  simp only [] at h
  split at h
  · cases h
  · rename_i hexcl
    split at h
    · rename_i hpos
      injection h with h
      refine ⟨h.symm, by simpa using hexcl, ?_⟩
      rw [← h]
      exact hpos
    · cases h

lemma nettingFn_eq_some_of {inventory : List Ingredient} {kv : String × DemandData}
    (hexcl : ((matchInventory inventory kv.1).map isUntrackedSatisfied).getD false = false)
    (hpos : 0 < max 0 (kv.2.amount - ((matchInventory inventory kv.1).map Ingredient.amount).getD 0)) :
    nettingFn inventory kv =
      some ⟨kv.1, max 0 (kv.2.amount - ((matchInventory inventory kv.1).map Ingredient.amount).getD 0),
            kv.2.unit, kv.2.category⟩ := by
  unfold nettingFn
  rw [if_neg (by simp [hexcl]), if_pos hpos]

lemma replenishStep_cases (repl : List String) (acc : List OutItem) (item : Ingredient) :
    replenishStep repl acc item = acc ∨
    (replenishStep repl acc item = acc ++ [replenishEntry item] ∧
      hasNameMatch acc item.name = false ∧
      (item.stockStatus = some StockStatus.outOfStock ∨
        (item.stockStatus = some StockStatus.lowStock ∧ repl.contains item.id = true))) := by
  unfold replenishStep
  split
  · rename_i hoos
    split
    · exact Or.inl rfl
    · rename_i hno
      exact Or.inr ⟨rfl, by simpa using hno, Or.inl hoos⟩
  · split
    · rename_i hlow
      split
      · exact Or.inl rfl
      · rename_i hno
        exact Or.inr ⟨rfl, by simpa using hno, Or.inr hlow⟩
    · exact Or.inl rfl

lemma replenishStep_oos {repl : List String} {acc : List OutItem} {item : Ingredient}
    (hoos : item.stockStatus = some StockStatus.outOfStock)
    (hno : hasNameMatch acc item.name = false) :
    replenishStep repl acc item = acc ++ [replenishEntry item] := by
  unfold replenishStep
  rw [if_pos hoos, if_neg (by simp [hno])]

lemma replenishStep_low_in {repl : List String} {acc : List OutItem} {item : Ingredient}
    (hlow : item.stockStatus = some StockStatus.lowStock)
    (hin : repl.contains item.id = true)
    (hno : hasNameMatch acc item.name = false) :
    replenishStep repl acc item = acc ++ [replenishEntry item] := by
  unfold replenishStep
  rw [if_neg (by simp [hlow]), if_pos ⟨hlow, hin⟩, if_neg (by simp [hno])]

lemma replenishStep_low_notin {repl : List String} {acc : List OutItem} {item : Ingredient}
    (hlow : item.stockStatus = some StockStatus.lowStock)
    (hnotin : repl.contains item.id = false) :
    replenishStep repl acc item = acc := by
  unfold replenishStep
  rw [if_neg (by simp [hlow]), if_neg (fun h => Bool.false_ne_true (hnotin ▸ h.2))]

lemma replenishStep_low_match {repl : List String} {acc : List OutItem} {item : Ingredient}
    (hlow : item.stockStatus = some StockStatus.lowStock)
    (hmatch : hasNameMatch acc item.name = true) :
    replenishStep repl acc item = acc := by
  unfold replenishStep
  rw [if_neg (by simp [hlow])]
  by_cases hc : item.stockStatus = some StockStatus.lowStock ∧ repl.contains item.id = true
  · rw [if_pos hc, if_pos hmatch]
  · rw [if_neg hc]

lemma replenish_foldl_extend (repl : List String) :
    ∀ (inv : List Ingredient) (init : List OutItem),
      ∃ tail, inv.foldl (replenishStep repl) init = init ++ tail ∧
        ∀ o ∈ tail, ∃ item ∈ inv, o = replenishEntry item ∧
          (item.stockStatus = some StockStatus.outOfStock ∨
            (item.stockStatus = some StockStatus.lowStock ∧ repl.contains item.id = true)) := by
  intro inv
  induction inv with
  | nil => intro init; exact ⟨[], by simp, by simp⟩
  | cons x xs ih =>
    intro init
    have hstep : ∃ t0, replenishStep repl init x = init ++ t0 ∧
        ∀ o ∈ t0, o = replenishEntry x ∧
          (x.stockStatus = some StockStatus.outOfStock ∨
            (x.stockStatus = some StockStatus.lowStock ∧ repl.contains x.id = true)) := by
      rcases replenishStep_cases repl init x with h | ⟨h, -, hst⟩
      · exact ⟨[], by simp [h], by simp⟩
      · refine ⟨[replenishEntry x], h, ?_⟩
        intro o ho
        simp only [List.mem_singleton] at ho
        exact ⟨ho, hst⟩
    obtain ⟨t0, ht0, hprop⟩ := hstep
    obtain ⟨tail, htail, hp2⟩ := ih (init ++ t0)
    refine ⟨t0 ++ tail, ?_, ?_⟩
    · rw [List.foldl_cons, ht0, htail, List.append_assoc]
    · intro o ho
      rcases List.mem_append.1 ho with h | h
      · obtain ⟨ho1, ho2⟩ := hprop o h
        exact ⟨x, List.mem_cons_self .., ho1, ho2⟩
      · obtain ⟨item, hitem, rest⟩ := hp2 o h
        exact ⟨item, List.mem_cons_of_mem _ hitem, rest⟩

lemma foldl_eq_take_drop {α β : Type} (f : β → α → β) (init : β) (l : List α)
    (k : Nat) (hk : k < l.length) :
    l.foldl f init = (l.drop (k + 1)).foldl f (f ((l.take k).foldl f init) l[k]) := by
  conv_lhs => rw [← List.take_append_drop k l]
  rw [List.foldl_append, List.drop_eq_getElem_cons hk, List.foldl_cons]

/-! Claim theorems. -/

/-- Claim C1 (confirmed): for every aggregated demand entry whose
case-insensitively matched inventory item is not an excluded untracked
item, the netted amount equals demand minus the matched inventory amount
(zero when no match), floored at zero, and an entry with the demand key
and that amount appears in the shopping-list output exactly when the
remainder is strictly positive. -/
theorem netted_amount_iff_positive (plan : List PlanEntry) (recipes : List Recipe)
    (inv : List Ingredient) (repl : List String) (key : String) (data : DemandData)
    (hmem : (key, data) ∈ aggregateDemand plan recipes)
    (hexcl : ((matchInventory inv key).map isUntrackedSatisfied).getD false = false) :
    (∃ o ∈ shoppingList plan recipes inv repl, o.name = key ∧
        o.amount = max 0 (data.amount - ((matchInventory inv key).map Ingredient.amount).getD 0)) ↔
      0 < max 0 (data.amount - ((matchInventory inv key).map Ingredient.amount).getD 0) := by
  obtain ⟨tail, ht, hp⟩ := replenish_foldl_extend repl inv (nettedItems plan recipes inv)
  constructor
  · rintro ⟨o, ho, -, hamt⟩
    rw [shoppingList, ht] at ho
    rw [← hamt]
    rcases List.mem_append.1 ho with h | h
    · rw [nettedItems, List.mem_filterMap] at h
      obtain ⟨kv, -, hfn⟩ := h
      obtain ⟨-, -, hpos⟩ := nettingFn_eq_some hfn
      exact hpos
    · obtain ⟨item, -, ho_eq, -⟩ := hp o h
      rw [ho_eq]
      exact zero_lt_one
  · intro hpos
    refine ⟨⟨key, max 0 (data.amount - ((matchInventory inv key).map Ingredient.amount).getD 0),
             data.unit, data.category⟩, ?_, rfl, rfl⟩
    rw [shoppingList, ht]
    apply List.mem_append_left
    rw [nettedItems, List.mem_filterMap]
    exact ⟨(key, data), hmem, nettingFn_eq_some_of hexcl hpos⟩

/-- Witness for C1, the Margherita Pizza scenario of the spec: a plan of
Margherita Pizza times 2 with 100 ml tomato sauce per recipe against 50 ml
tracked tomato sauce yields the single line tomato sauce, amount 150. -/
theorem netted_amount_margherita_witness :
    ("tomato sauce", ({ amount := 200, unit := "ml", category := "Pantry" } : DemandData)) ∈
        aggregateDemand [⟨"1", 2⟩]
          [{ id := "1", name := "Margherita Pizza", description := "",
             ingredients := [{ id := "i2", name := "Tomato Sauce", amount := 100, unit := "ml",
                               category := some "Pantry", untrackedAmount := false,
                               stockStatus := none, optional := false }],
             instructions := "", tags := [], prepTime := none }] ∧
    (∃ o ∈ shoppingList [⟨"1", 2⟩]
          [{ id := "1", name := "Margherita Pizza", description := "",
             ingredients := [{ id := "i2", name := "Tomato Sauce", amount := 100, unit := "ml",
                               category := some "Pantry", untrackedAmount := false,
                               stockStatus := none, optional := false }],
             instructions := "", tags := [], prepTime := none }]
          [{ id := "inv1", name := "Tomato Sauce", amount := 50, unit := "ml",
             category := some "Pantry", untrackedAmount := false, stockStatus := none }] [],
        o.name = "tomato sauce" ∧ o.amount = 150) ∧
    shoppingList [⟨"1", 2⟩]
          [{ id := "1", name := "Margherita Pizza", description := "",
             ingredients := [{ id := "i2", name := "Tomato Sauce", amount := 100, unit := "ml",
                               category := some "Pantry", untrackedAmount := false,
                               stockStatus := none, optional := false }],
             instructions := "", tags := [], prepTime := none }]
          [{ id := "inv1", name := "Tomato Sauce", amount := 50, unit := "ml",
             category := some "Pantry", untrackedAmount := false, stockStatus := none }] []
      = [⟨"tomato sauce", 150, "ml", "Pantry"⟩] := by
  refine ⟨by decide, ?_, by decide⟩
  have h := (netted_amount_iff_positive [⟨"1", 2⟩]
      [{ id := "1", name := "Margherita Pizza", description := "",
         ingredients := [{ id := "i2", name := "Tomato Sauce", amount := 100, unit := "ml",
                           category := some "Pantry", untrackedAmount := false,
                           stockStatus := none, optional := false }],
         instructions := "", tags := [], prepTime := none }]
      [{ id := "inv1", name := "Tomato Sauce", amount := 50, unit := "ml",
         category := some "Pantry", untrackedAmount := false, stockStatus := none }] []
      "tomato sauce" { amount := 200, unit := "ml", category := "Pantry" }
      (by decide) (by decide)).mpr (by decide)
  obtain ⟨o, ho, hname, hamt⟩ := h
  exact ⟨o, ho, hname, by rw [hamt]; decide⟩

/-- Counterexample to C2 as stated: an untracked low-stock inventory item
(basil) whose id is in the replenish set appears in the shopping-list
output even though it matches a demanded ingredient name, is untracked and
is not out of stock.  The demand (3) is excluded, but the replenishment
stage still injects a quantity-1 line with that very name. -/
theorem untracked_replenish_counterexample :
    aggregateDemand [⟨"r1", 1⟩]
        [{ id := "r1", name := "Basil Salad", description := "",
           ingredients := [{ id := "i1", name := "basil", amount := 3, unit := "pcs",
                             category := some "Produce", untrackedAmount := false,
                             stockStatus := none, optional := false }],
           instructions := "", tags := [], prepTime := none }]
      = [("basil", { amount := 3, unit := "pcs", category := "Produce" })] ∧
    matchInventory
        [{ id := "b1", name := "basil", amount := 0, unit := "pcs", category := some "Produce",
           untrackedAmount := true, stockStatus := some StockStatus.lowStock }] "basil"
      = some { id := "b1", name := "basil", amount := 0, unit := "pcs",
               category := some "Produce", untrackedAmount := true,
               stockStatus := some StockStatus.lowStock } ∧
    shoppingList [⟨"r1", 1⟩]
        [{ id := "r1", name := "Basil Salad", description := "",
           ingredients := [{ id := "i1", name := "basil", amount := 3, unit := "pcs",
                             category := some "Produce", untrackedAmount := false,
                             stockStatus := none, optional := false }],
           instructions := "", tags := [], prepTime := none }]
        [{ id := "b1", name := "basil", amount := 0, unit := "pcs", category := some "Produce",
           untrackedAmount := true, stockStatus := some StockStatus.lowStock }]
        ["b1"]
      = [⟨"basil", 1, "pcs", "Produce"⟩] := by
  refine ⟨by decide, by decide, by decide⟩

/-- Claim C2 as amended: when the inventory item matching a demanded
ingredient key is untracked and not out of stock, no demand-netted entry
for that key is produced, regardless of the aggregated demand; any entry
carrying that key in the final output is a quantity-1 replenishment line
(possible only via the low-stock opt-in or an out-of-stock injection of a
same-named item). -/
theorem untracked_excluded_from_netting (plan : List PlanEntry) (recipes : List Recipe)
    (inv : List Ingredient) (repl : List String) (key : String) (data : DemandData)
    (hmem : (key, data) ∈ aggregateDemand plan recipes)
    (s : Ingredient) (hfind : matchInventory inv key = some s)
    (huntr : s.untrackedAmount = true)
    (hnoos : s.stockStatus ≠ some StockStatus.outOfStock) :
    (∀ o ∈ nettedItems plan recipes inv, o.name ≠ key) ∧
    (∀ o ∈ shoppingList plan recipes inv repl, o.name = key → o.amount = 1) := by
  have hA : ∀ o ∈ nettedItems plan recipes inv, o.name ≠ key := by
    intro o ho hname
    rw [nettedItems, List.mem_filterMap] at ho
    obtain ⟨kv, hkv, hfn⟩ := ho
    obtain ⟨ho_eq, hnex, -⟩ := nettingFn_eq_some hfn
    have hk1 : kv.1 = key := by rw [ho_eq] at hname; exact hname
    rw [hk1, hfind] at hnex
    simp [isUntrackedSatisfied, huntr, hnoos] at hnex
  refine ⟨hA, ?_⟩
  obtain ⟨tail, ht, hp⟩ := replenish_foldl_extend repl inv (nettedItems plan recipes inv)
  intro o ho hname
  rw [shoppingList, ht] at ho
  rcases List.mem_append.1 ho with h | h
  · exact absurd hname (hA o h)
  · obtain ⟨item, -, ho_eq, -⟩ := hp o h
    rw [ho_eq]
    rfl

/-- Witness for the amended C2, the Avocado scenario of the spec: the
inventory item Avocado is untracked and in stock, the plan demands 3
avocados, and the shopping list is empty. -/
theorem untracked_excluded_witness :
    ("avocado", ({ amount := 3, unit := "pcs", category := "Produce" } : DemandData)) ∈
        aggregateDemand [⟨"r2", 1⟩]
          [{ id := "r2", name := "Avocado Toast", description := "",
             ingredients := [{ id := "i6", name := "Avocado", amount := 3, unit := "pcs",
                               category := some "Produce", untrackedAmount := false,
                               stockStatus := none, optional := false }],
             instructions := "", tags := [], prepTime := none }] ∧
    (∀ o ∈ nettedItems [⟨"r2", 1⟩]
          [{ id := "r2", name := "Avocado Toast", description := "",
             ingredients := [{ id := "i6", name := "Avocado", amount := 3, unit := "pcs",
                               category := some "Produce", untrackedAmount := false,
                               stockStatus := none, optional := false }],
             instructions := "", tags := [], prepTime := none }]
          [{ id := "inv2", name := "Avocado", amount := 5, unit := "pcs",
             category := some "Produce", untrackedAmount := true,
             stockStatus := some StockStatus.inStock }],
        o.name ≠ "avocado") ∧
    shoppingList [⟨"r2", 1⟩]
        [{ id := "r2", name := "Avocado Toast", description := "",
           ingredients := [{ id := "i6", name := "Avocado", amount := 3, unit := "pcs",
                             category := some "Produce", untrackedAmount := false,
                             stockStatus := none, optional := false }],
           instructions := "", tags := [], prepTime := none }]
        [{ id := "inv2", name := "Avocado", amount := 5, unit := "pcs",
           category := some "Produce", untrackedAmount := true,
           stockStatus := some StockStatus.inStock }] []
      = [] := by
  refine ⟨by decide, ?_, by decide⟩
  exact (untracked_excluded_from_netting [⟨"r2", 1⟩]
    [{ id := "r2", name := "Avocado Toast", description := "",
       ingredients := [{ id := "i6", name := "Avocado", amount := 3, unit := "pcs",
                         category := some "Produce", untrackedAmount := false,
                         stockStatus := none, optional := false }],
       instructions := "", tags := [], prepTime := none }]
    [{ id := "inv2", name := "Avocado", amount := 5, unit := "pcs",
       category := some "Produce", untrackedAmount := true,
       stockStatus := some StockStatus.inStock }] []
    "avocado" { amount := 3, unit := "pcs", category := "Produce" }
    (by decide)
    { id := "inv2", name := "Avocado", amount := 5, unit := "pcs",
      category := some "Produce", untrackedAmount := true,
      stockStatus := some StockStatus.inStock }
    (by decide) (by decide) (by decide)).1

/-- Counterexample to C3 as stated: two out-of-stock inventory items with
the same case-insensitive name and different units, an empty plan and
replenish set.  Nothing is present from the demand-netting stage, yet the
second item (MILK, unit gallon) gets no entry of its own: it is blocked by
the replenishment line injected for the earlier item (Milk, unit l), not
by a demand-netting entry. -/
theorem duplicate_out_of_stock_counterexample :
    nettedItems [] []
        [{ id := "a", name := "Milk", amount := 0, unit := "l", category := some "Dairy",
           untrackedAmount := false, stockStatus := some StockStatus.outOfStock },
         { id := "b", name := "MILK", amount := 0, unit := "gallon", category := some "Dairy",
           untrackedAmount := false, stockStatus := some StockStatus.outOfStock }]
      = [] ∧
    shoppingList [] []
        [{ id := "a", name := "Milk", amount := 0, unit := "l", category := some "Dairy",
           untrackedAmount := false, stockStatus := some StockStatus.outOfStock },
         { id := "b", name := "MILK", amount := 0, unit := "gallon", category := some "Dairy",
           untrackedAmount := false, stockStatus := some StockStatus.outOfStock }] []
      = [⟨"Milk", 1, "l", "Dairy"⟩] := by
  refine ⟨by decide, by decide⟩

/-- Claim C3 as amended: every out-of-stock inventory item is injected
into the shopping list as a quantity-1 line with its own name, unit and
category, unless an entry with the same case-insensitive name is already
present in the accumulated list when the item is processed, that is, from
the demand-netting stage or from an earlier replenishment injection; this
holds for every plan and replenish set. -/
theorem out_of_stock_injected (plan : List PlanEntry) (recipes : List Recipe)
    (inv : List Ingredient) (repl : List String) (k : Nat) (hk : k < inv.length)
    (hoos : inv[k].stockStatus = some StockStatus.outOfStock)
    (hno : hasNameMatch ((inv.take k).foldl (replenishStep repl) (nettedItems plan recipes inv))
        inv[k].name = false) :
    replenishEntry inv[k] ∈ shoppingList plan recipes inv repl := by
  rw [shoppingList, foldl_eq_take_drop (replenishStep repl) (nettedItems plan recipes inv) inv k hk]
  rw [replenishStep_oos hoos hno]
  obtain ⟨tail, ht, -⟩ := replenish_foldl_extend repl (inv.drop (k + 1)) _
  rw [ht]
  simp

/-- Witness for the amended C3: a single out-of-stock inventory item with
no plan is injected as its quantity-1 replenishment line. -/
theorem out_of_stock_injected_witness :
    replenishEntry ({ id := "a", name := "Milk", amount := 0, unit := "l",
                      category := some "Dairy", untrackedAmount := false,
                      stockStatus := some StockStatus.outOfStock } : Ingredient) ∈
      shoppingList [] []
        [{ id := "a", name := "Milk", amount := 0, unit := "l", category := some "Dairy",
           untrackedAmount := false, stockStatus := some StockStatus.outOfStock }] [] ∧
    shoppingList [] []
        [{ id := "a", name := "Milk", amount := 0, unit := "l", category := some "Dairy",
           untrackedAmount := false, stockStatus := some StockStatus.outOfStock }] []
      = [⟨"Milk", 1, "l", "Dairy"⟩] := by
  refine ⟨?_, by decide⟩
  exact out_of_stock_injected [] []
    [{ id := "a", name := "Milk", amount := 0, unit := "l", category := some "Dairy",
       untrackedAmount := false, stockStatus := some StockStatus.outOfStock }] []
    0 (by decide) (by decide) (by decide)

/-- Counterexample to C4 as stated: a tracked low-stock item named milk
with amount 0, a plan demanding 1 l of milk, and an empty replenish set.
The output contains a line with exactly the item's name, quantity 1, its
unit and its category, although the item's id is in no replenish set: the
line comes from demand netting, so a low-stock item can appear without
being opted in. -/
theorem low_stock_without_flag_counterexample :
    shoppingList [⟨"r1", 1⟩]
        [{ id := "r1", name := "Porridge", description := "",
           ingredients := [{ id := "i1", name := "milk", amount := 1, unit := "l",
                             category := some "Dairy", untrackedAmount := false,
                             stockStatus := none, optional := false }],
           instructions := "", tags := [], prepTime := none }]
        [{ id := "b", name := "milk", amount := 0, unit := "l", category := some "Dairy",
           untrackedAmount := false, stockStatus := some StockStatus.lowStock }] []
      = [⟨"milk", 1, "l", "Dairy"⟩] ∧
    replenishEntry ({ id := "b", name := "milk", amount := 0, unit := "l",
                      category := some "Dairy", untrackedAmount := false,
                      stockStatus := some StockStatus.lowStock } : Ingredient)
      = ⟨"milk", 1, "l", "Dairy"⟩ ∧
    (([] : List String).contains "b") = false := by
  refine ⟨by decide, by decide, by decide⟩

/-- Claim C4 as amended: the replenishment stage adds a low-stock
inventory item (as its quantity-1 line) exactly when its id is in the
replenish set and no case-insensitively same-named entry is already in
the accumulated list: under those two conditions the line is added and
reaches the output; when its id is not in the replenish set, or when a
same-named entry is already present, the replenishment step for that
item leaves the list unchanged.  Same-named demand-netting entries may
appear in the output independently of the replenish set. -/
theorem low_stock_opt_in (plan : List PlanEntry) (recipes : List Recipe)
    (inv : List Ingredient) (repl : List String) (k : Nat) (hk : k < inv.length)
    (hlow : inv[k].stockStatus = some StockStatus.lowStock) :
    (repl.contains inv[k].id = true →
      hasNameMatch ((inv.take k).foldl (replenishStep repl) (nettedItems plan recipes inv))
          inv[k].name = false →
      replenishEntry inv[k] ∈ shoppingList plan recipes inv repl) ∧
    (repl.contains inv[k].id = false →
      replenishStep repl
          ((inv.take k).foldl (replenishStep repl) (nettedItems plan recipes inv)) inv[k]
        = (inv.take k).foldl (replenishStep repl) (nettedItems plan recipes inv)) ∧
    (hasNameMatch ((inv.take k).foldl (replenishStep repl) (nettedItems plan recipes inv))
        inv[k].name = true →
      replenishStep repl
          ((inv.take k).foldl (replenishStep repl) (nettedItems plan recipes inv)) inv[k]
        = (inv.take k).foldl (replenishStep repl) (nettedItems plan recipes inv)) := by
  refine ⟨?_, ?_, ?_⟩
  · intro hin hno
    rw [shoppingList, foldl_eq_take_drop (replenishStep repl) (nettedItems plan recipes inv) inv k hk]
    rw [replenishStep_low_in hlow hin hno]
    obtain ⟨tail, ht, -⟩ := replenish_foldl_extend repl (inv.drop (k + 1)) _
    rw [ht]
    simp
  · intro hnotin
    exact replenishStep_low_notin hlow hnotin
  · intro hmatch
    exact replenishStep_low_match hlow hmatch

/-- Witness for the amended C4, exercising all three parts: a lone
low-stock item is injected when its id is in the replenish set and
nothing blocks it; the replenishment step is the identity when the
replenish set is empty; and a flagged low-stock item is not added when a
same-named demand-netted entry is already in the accumulated list, so
the output keeps only the demand line. -/
theorem low_stock_opt_in_witness :
    replenishEntry ({ id := "b", name := "Milk", amount := 0, unit := "l",
                      category := some "Dairy", untrackedAmount := false,
                      stockStatus := some StockStatus.lowStock } : Ingredient) ∈
      shoppingList [] []
        [{ id := "b", name := "Milk", amount := 0, unit := "l", category := some "Dairy",
           untrackedAmount := false, stockStatus := some StockStatus.lowStock }] ["b"] ∧
    replenishStep []
        (nettedItems [] []
          [{ id := "b", name := "Milk", amount := 0, unit := "l", category := some "Dairy",
             untrackedAmount := false, stockStatus := some StockStatus.lowStock }])
        { id := "b", name := "Milk", amount := 0, unit := "l", category := some "Dairy",
          untrackedAmount := false, stockStatus := some StockStatus.lowStock }
      = nettedItems [] []
          [{ id := "b", name := "Milk", amount := 0, unit := "l", category := some "Dairy",
             untrackedAmount := false, stockStatus := some StockStatus.lowStock }] ∧
    replenishStep ["b"]
        (nettedItems [⟨"r1", 1⟩]
          [{ id := "r1", name := "Porridge", description := "",
             ingredients := [{ id := "i1", name := "milk", amount := 1, unit := "l",
                               category := some "Dairy", untrackedAmount := false,
                               stockStatus := none, optional := false }],
             instructions := "", tags := [], prepTime := none }]
          [{ id := "b", name := "milk", amount := 0, unit := "l", category := some "Dairy",
             untrackedAmount := false, stockStatus := some StockStatus.lowStock }])
        { id := "b", name := "milk", amount := 0, unit := "l", category := some "Dairy",
          untrackedAmount := false, stockStatus := some StockStatus.lowStock }
      = nettedItems [⟨"r1", 1⟩]
          [{ id := "r1", name := "Porridge", description := "",
             ingredients := [{ id := "i1", name := "milk", amount := 1, unit := "l",
                               category := some "Dairy", untrackedAmount := false,
                               stockStatus := none, optional := false }],
             instructions := "", tags := [], prepTime := none }]
          [{ id := "b", name := "milk", amount := 0, unit := "l", category := some "Dairy",
             untrackedAmount := false, stockStatus := some StockStatus.lowStock }] ∧
    shoppingList [⟨"r1", 1⟩]
        [{ id := "r1", name := "Porridge", description := "",
           ingredients := [{ id := "i1", name := "milk", amount := 1, unit := "l",
                             category := some "Dairy", untrackedAmount := false,
                             stockStatus := none, optional := false }],
           instructions := "", tags := [], prepTime := none }]
        [{ id := "b", name := "milk", amount := 0, unit := "l", category := some "Dairy",
           untrackedAmount := false, stockStatus := some StockStatus.lowStock }] ["b"]
      = [⟨"milk", 1, "l", "Dairy"⟩] := by
  refine ⟨?_, ?_, ?_, by decide⟩
  · exact (low_stock_opt_in [] []
      [{ id := "b", name := "Milk", amount := 0, unit := "l", category := some "Dairy",
         untrackedAmount := false, stockStatus := some StockStatus.lowStock }] ["b"]
      0 (by decide) (by decide)).1 (by decide) (by decide)
  · have h := (low_stock_opt_in [] []
      [{ id := "b", name := "Milk", amount := 0, unit := "l", category := some "Dairy",
         untrackedAmount := false, stockStatus := some StockStatus.lowStock }] []
      0 (by decide) (by decide)).2.1 (by decide)
    simpa using h
  · have h := (low_stock_opt_in [⟨"r1", 1⟩]
      [{ id := "r1", name := "Porridge", description := "",
         ingredients := [{ id := "i1", name := "milk", amount := 1, unit := "l",
                           category := some "Dairy", untrackedAmount := false,
                           stockStatus := none, optional := false }],
         instructions := "", tags := [], prepTime := none }]
      [{ id := "b", name := "milk", amount := 0, unit := "l", category := some "Dairy",
         untrackedAmount := false, stockStatus := some StockStatus.lowStock }] ["b"]
      0 (by decide) (by decide)).2.2 (by decide)
    simpa using h

lemma mergeFirst_eq_none (p : Ingredient → Bool) (g : Ingredient → Ingredient) :
    ∀ l : List Ingredient, (∀ i ∈ l, p i = false) → mergeFirst p g l = none := by
  intro l
  induction l with
  | nil => intro _; rfl
  | cons x xs ih =>
    intro h
    unfold mergeFirst
    rw [if_neg (by simp [h x (List.mem_cons_self ..)]),
        ih (fun i hi => h i (List.mem_cons_of_mem _ hi))]
    rfl

lemma mergeFirst_split (p : Ingredient → Bool) (g : Ingredient → Ingredient) :
    ∀ (pre : List Ingredient) (ex : Ingredient) (post : List Ingredient),
      (∀ i ∈ pre, p i = false) → p ex = true →
      mergeFirst p g (pre ++ ex :: post) = some (pre ++ g ex :: post) := by
  intro pre
  induction pre with
  | nil =>
    intro ex post _ hex
    rw [List.nil_append, List.nil_append]
    unfold mergeFirst
    rw [if_pos hex]
  | cons x xs ih =>
    intro ex post hpre hex
    rw [List.cons_append, List.cons_append]
    unfold mergeFirst
    rw [if_neg (by simp [hpre x (List.mem_cons_self ..)]),
        ih ex post (fun i hi => hpre i (List.mem_cons_of_mem _ hi)) hex]
    rfl

/-- Claim C5 (confirmed): when no existing inventory item matches the new
item's name case-insensitively, the item is appended with fresh identity;
with a match, an incoming untracked item marks the existing item untracked
and adopts the incoming stock status, an incoming tracked item replaces
the amount of a previously untracked item and adds to the amount of a
previously tracked one; in all match cases the list length is unchanged. -/
theorem addItem_merge_cases (inv : List Ingredient) (newItem : NewItem) (newId : String)
    (hname : ¬ trimName newItem.name = "") :
    ((∀ i ∈ inv, ¬ normName i.name = normName newItem.name) →
      addItem inv newItem newId = inv ++ [freshIngredient newItem newId]) ∧
    (∀ (pre post : List Ingredient) (ex : Ingredient),
      inv = pre ++ ex :: post →
      (∀ i ∈ pre, ¬ normName i.name = normName newItem.name) →
      normName ex.name = normName newItem.name →
      (addItem inv newItem newId).length = inv.length ∧
      (newItem.untrackedAmount = true →
        addItem inv newItem newId =
          pre ++ ({ ex with untrackedAmount := true,
                            stockStatus := some newItem.stockStatus }) :: post) ∧
      (newItem.untrackedAmount = false → ex.untrackedAmount = true →
        addItem inv newItem newId =
          pre ++ ({ ex with untrackedAmount := false, amount := newItem.amount }) :: post) ∧
      (newItem.untrackedAmount = false → ex.untrackedAmount = false →
        addItem inv newItem newId =
          pre ++ ({ ex with amount := ex.amount + newItem.amount }) :: post)) := by
  constructor
  · intro hall
    unfold addItem
    rw [if_neg hname,
        mergeFirst_eq_none _ _ inv (fun i hi => by simp [hall i hi])]
  · intro pre post ex hinv hpre hex
    have hmf : mergeFirst (fun i => decide (normName i.name = normName newItem.name))
        (updateExisting newItem) inv = some (pre ++ updateExisting newItem ex :: post) := by
      rw [hinv]
      exact mergeFirst_split _ _ pre ex post (fun i hi => by simp [hpre i hi]) (by simp [hex])
    have haddItem : addItem inv newItem newId = pre ++ updateExisting newItem ex :: post := by
      unfold addItem
      rw [if_neg hname, hmf]
    refine ⟨?_, ?_, ?_, ?_⟩
    · rw [haddItem, hinv]
      simp
    · intro hu
      rw [haddItem]
      unfold updateExisting
      rw [if_pos hu]
    · intro hu hexu
      rw [haddItem]
      unfold updateExisting
      rw [if_neg (by simp [hu]), if_pos hexu]
    · intro hu hexu
      rw [haddItem]
      unfold updateExisting
      rw [if_neg (by simp [hu]), if_neg (by simp [hexu])]

/-- Witness for C5, its four cases at concrete inputs: fresh append,
tracked-into-tracked cumulative restock (2 plus 5 is 7), tracked-into-
untracked replacement, and untracked-into-tracked status adoption, each
matching by name case-insensitively. -/
theorem addItem_merge_cases_witness :
    addItem [] ⟨"Milk", 3, "l", "Dairy", false, StockStatus.inStock⟩ "f1"
      = [⟨"f1", "Milk", 3, "l", some "Dairy", false, some StockStatus.inStock⟩] ∧
    addItem [⟨"e1", "Milk", 2, "l", some "Dairy", false, none⟩]
        ⟨"MILK", 5, "l", "Dairy", false, StockStatus.inStock⟩ "f2"
      = [⟨"e1", "Milk", 7, "l", some "Dairy", false, none⟩] ∧
    addItem [⟨"e2", "Eggs", 1, "pcs", some "Dairy", true, some StockStatus.inStock⟩]
        ⟨"EGGS", 6, "pcs", "Dairy", false, StockStatus.inStock⟩ "f3"
      = [⟨"e2", "Eggs", 6, "pcs", some "Dairy", false, some StockStatus.inStock⟩] ∧
    addItem [⟨"e1", "Milk", 2, "l", some "Dairy", false, none⟩]
        ⟨"MILK", 0, "l", "Dairy", true, StockStatus.lowStock⟩ "f4"
      = [⟨"e1", "Milk", 2, "l", some "Dairy", true, some StockStatus.lowStock⟩] := by
  refine ⟨?_, ?_, ?_, ?_⟩
  · have h := (addItem_merge_cases [] ⟨"Milk", 3, "l", "Dairy", false, StockStatus.inStock⟩ "f1"
      (by decide)).1 (by simp)
    rw [h]
    decide
  · have h := ((addItem_merge_cases [⟨"e1", "Milk", 2, "l", some "Dairy", false, none⟩]
      ⟨"MILK", 5, "l", "Dairy", false, StockStatus.inStock⟩ "f2" (by decide)).2
      [] [] ⟨"e1", "Milk", 2, "l", some "Dairy", false, none⟩ rfl (by simp)
      (by decide)).2.2.2 rfl rfl
    rw [h]
    decide
  · have h := ((addItem_merge_cases
      [⟨"e2", "Eggs", 1, "pcs", some "Dairy", true, some StockStatus.inStock⟩]
      ⟨"EGGS", 6, "pcs", "Dairy", false, StockStatus.inStock⟩ "f3" (by decide)).2
      [] [] ⟨"e2", "Eggs", 1, "pcs", some "Dairy", true, some StockStatus.inStock⟩ rfl (by simp)
      (by decide)).2.2.1 rfl rfl
    rw [h]
    decide
  · have h := ((addItem_merge_cases [⟨"e1", "Milk", 2, "l", some "Dairy", false, none⟩]
      ⟨"MILK", 0, "l", "Dairy", true, StockStatus.lowStock⟩ "f4" (by decide)).2
      [] [] ⟨"e1", "Milk", 2, "l", some "Dairy", false, none⟩ rfl (by simp)
      (by decide)).2.1 rfl
    rw [h]
    decide

lemma missingFn_eq_some {inventory : List Ingredient} {req : RecipeIngredient} {name : String} :
    missingFn inventory req = some name ↔
      req.name = name ∧ req.optional = false ∧
      (inventory.find? (fun i => decide (normName i.name = normName req.name)) = none ∨
        ∃ s, inventory.find? (fun i => decide (normName i.name = normName req.name)) = some s ∧
          s.amount < req.amount) := by
  unfold missingFn
  rcases hf : inventory.find? (fun i => decide (normName i.name = normName req.name)) with _ | s
  · rw [hf]
    cases hopt : req.optional
    · simp [hopt, eq_comm]
    · simp [hopt]
  · rw [hf]
    cases hopt : req.optional
    · by_cases hlt : s.amount < req.amount
      · simp [hopt, hlt, eq_comm]
      · simp [hopt, hlt]
    · simp [hopt]

lemma missingFn_untracked (inventory : List Ingredient) (g : Ingredient → Bool)
    (req : RecipeIngredient) :
    missingFn (inventory.map (fun i => { i with untrackedAmount := g i })) req
      = missingFn inventory req := by
  unfold missingFn
  rw [List.find?_map]
  have hcomp : ((fun i : Ingredient => decide (normName i.name = normName req.name)) ∘
      (fun i : Ingredient => { i with untrackedAmount := g i }))
      = (fun i : Ingredient => decide (normName i.name = normName req.name)) := rfl
  rw [hcomp]
  rcases hf : inventory.find? (fun i => decide (normName i.name = normName req.name)) with _ | s <;>
    rw [hf] <;> rfl

/-- Claim C6 (confirmed): `checkCookability` returns exactly the names of
the non-optional recipe ingredients for which no inventory item matches
case-insensitively or the matched amount is strictly below the required
amount; the recipe is cookable exactly when this list is empty; and the
`untrackedAmount` flags of the inventory are irrelevant to the result, so
an untracked item is not treated as automatically sufficient. -/
theorem checkCookability_characterization (recipe : Recipe) (inventory : List Ingredient) :
    (∀ name, name ∈ checkCookability recipe inventory ↔
      ∃ req ∈ recipe.ingredients, req.name = name ∧ req.optional = false ∧
        (inventory.find? (fun i => decide (normName i.name = normName req.name)) = none ∨
          ∃ s, inventory.find? (fun i => decide (normName i.name = normName req.name)) = some s ∧
            s.amount < req.amount)) ∧
    (canCook recipe inventory = true ↔ checkCookability recipe inventory = []) ∧
    (∀ g : Ingredient → Bool,
      checkCookability recipe (inventory.map (fun i => { i with untrackedAmount := g i }))
        = checkCookability recipe inventory) := by
  refine ⟨?_, ?_, ?_⟩
  · intro name
    rw [checkCookability, List.mem_filterMap]
    constructor
    · rintro ⟨req, hreq, hfn⟩
      obtain ⟨h1, h2, h3⟩ := missingFn_eq_some.1 hfn
      exact ⟨req, hreq, h1, h2, h3⟩
    · rintro ⟨req, hreq, h1, h2, h3⟩
      exact ⟨req, hreq, missingFn_eq_some.2 ⟨h1, h2, h3⟩⟩
  · rw [canCook]
    simp [List.length_eq_zero]
  · intro g
    rw [checkCookability, checkCookability,
        show missingFn (inventory.map (fun i => { i with untrackedAmount := g i }))
          = missingFn inventory from funext (missingFn_untracked inventory g)]

lemma filter_ne_length_bound (c : String) :
    ∀ l : List String, l.length ≤ (l.filter (fun x => decide (¬ x = c))).length + l.count c := by
  intro l
  induction l with
  | nil => simp
  | cons x xs ih =>
    by_cases hx : x = c
    · subst hx
      rw [List.count_cons_self, List.filter_cons_of_neg (by simp)]
      simp only [List.length_cons]
      omega
    · rw [List.count_cons_of_ne (Ne.symm hx), List.filter_cons_of_pos (by simp [hx])]
      simp only [List.length_cons]
      omega

/-- Counterexample to the unconditional non-emptiness in C7: on a state
whose category vocabulary holds a duplicated entry (reachable through
import, which applies no validation), deleting that category empties the
vocabulary, because the guard only checks the total length and the filter
removes every occurrence. -/
theorem duplicate_category_counterexample :
    (AppState.mk [] [] [] ["Dairy", "Dairy"]).categories ≠ [] ∧
    (removeCategory (AppState.mk [] [] [] ["Dairy", "Dairy"]) "Dairy").categories = [] := by
  refine ⟨by decide, by decide⟩

/-- Claim C7 as amended: with more than one category, deletion removes
every occurrence of the category from the vocabulary and reassigns every
recipe ingredient and inventory item carrying it to Other, leaving tags
untouched; with at most one category the state is unchanged (the UI shows
a warning); consequently the category list stays non-empty for every
state whose non-empty vocabulary contains the deleted category at most
once (duplicate vocabularies, reachable only through unvalidated import,
can be emptied). -/
theorem removeCategory_cases (s : AppState) (c : String) :
    (s.categories.length ≤ 1 → removeCategory s c = s) ∧
    (1 < s.categories.length →
      (∀ x, x ∈ (removeCategory s c).categories ↔ (x ∈ s.categories ∧ ¬ x = c)) ∧
      (removeCategory s c).recipes = s.recipes.map (fun r =>
        { r with ingredients := r.ingredients.map (reassignRecipeIngredient c) }) ∧
      (removeCategory s c).inventory = s.inventory.map (reassignToOther c) ∧
      (removeCategory s c).customTags = s.customTags) ∧
    (s.categories ≠ [] → s.categories.count c ≤ 1 → (removeCategory s c).categories ≠ []) := by
  refine ⟨?_, ?_, ?_⟩
  · intro h
    unfold removeCategory
    rw [if_pos h]
  · intro h
    unfold removeCategory
    rw [if_neg (by omega)]
    refine ⟨?_, rfl, rfl, rfl⟩
    intro x
    simp [List.mem_filter]
  · intro hne hcount
    rcases Nat.lt_or_ge 1 s.categories.length with hgt | hle
    · unfold removeCategory
      rw [if_neg (by omega)]
      have hb := filter_ne_length_bound c s.categories
      have hlen : 0 < (s.categories.filter (fun x => decide (¬ x = c))).length := by omega
      exact List.length_pos.1 hlen
    · unfold removeCategory
      rw [if_pos hle]
      exact hne

/-- Witness for C7: deleting Dairy from a two-category state reassigns the
Dairy inventory item to Other, drops Dairy and keeps Other in the
vocabulary, leaves it non-empty, and deleting from a one-category state is
a no-op. -/
theorem removeCategory_cases_witness :
    removeCategory (AppState.mk [] [] [] ["Other"]) "Other" = AppState.mk [] [] [] ["Other"] ∧
    ("Dairy" ∉ (removeCategory
        (AppState.mk [] [⟨"i", "Cheese", 1, "pcs", some "Dairy", false, none⟩] []
          ["Dairy", "Other"]) "Dairy").categories) ∧
    ("Other" ∈ (removeCategory
        (AppState.mk [] [⟨"i", "Cheese", 1, "pcs", some "Dairy", false, none⟩] []
          ["Dairy", "Other"]) "Dairy").categories) ∧
    (removeCategory
        (AppState.mk [] [⟨"i", "Cheese", 1, "pcs", some "Dairy", false, none⟩] []
          ["Dairy", "Other"]) "Dairy").inventory
      = [⟨"i", "Cheese", 1, "pcs", some "Other", false, none⟩] ∧
    (removeCategory
        (AppState.mk [] [⟨"i", "Cheese", 1, "pcs", some "Dairy", false, none⟩] []
          ["Dairy", "Other"]) "Dairy").categories ≠ [] := by
  have h2 := (removeCategory_cases
    (AppState.mk [] [⟨"i", "Cheese", 1, "pcs", some "Dairy", false, none⟩] []
      ["Dairy", "Other"]) "Dairy").2.1 (by decide)
  refine ⟨(removeCategory_cases (AppState.mk [] [] [] ["Other"]) "Other").1 (by decide),
    ?_, ?_, ?_,
    (removeCategory_cases
      (AppState.mk [] [⟨"i", "Cheese", 1, "pcs", some "Dairy", false, none⟩] []
        ["Dairy", "Other"]) "Dairy").2.2 (by decide) (by decide)⟩
  · intro hmem
    exact ((h2.1 "Dairy").1 hmem).2 rfl
  · exact (h2.1 "Other").2 ⟨by decide, by decide⟩
  · rw [h2.2.2.1]
    decide

/-- Claim C8 (confirmed): the loader is total over all stored documents
(totality is structural in this embedding, where a fallible parse is an
`Option` and the catch-all of the source's try block maps every failure to
`some none`): absence and parse failure both yield the full default
aggregate with the seed tag and category vocabularies, and on a parsed
document each of the four fields defaults independently of the others. -/
theorem load_defaults_independent (stored : Option (Option StoredDoc)) :
    ((stored = none ∨ stored = some none) → loadFromLocalStorage stored = defaultAppState) ∧
    (∀ doc, stored = some (some doc) →
      (loadFromLocalStorage stored).recipes = doc.recipes.getD [] ∧
      (loadFromLocalStorage stored).inventory = doc.inventory.getD [] ∧
      (loadFromLocalStorage stored).customTags = doc.customTags.getD defaultTags ∧
      (loadFromLocalStorage stored).categories = doc.categories.getD DEFAULT_CATEGORIES) ∧
    (defaultAppState.recipes = [] ∧ defaultAppState.inventory = [] ∧
      defaultAppState.customTags = defaultTags ∧
      defaultAppState.categories = DEFAULT_CATEGORIES) := by
  refine ⟨?_, ?_, rfl, rfl, rfl, rfl⟩
  · rintro (rfl | rfl) <;> rfl
  · rintro doc rfl
    exact ⟨rfl, rfl, rfl, rfl⟩

/-- Witness for C8: absence and corruption both give the default state; a
document with only inventory and categories present keeps those verbatim
while recipes and tags default independently. -/
theorem load_defaults_witness :
    loadFromLocalStorage none = defaultAppState ∧
    loadFromLocalStorage (some none) = defaultAppState ∧
    (loadFromLocalStorage (some (some
        ⟨none, some [⟨"x", "Rice", 1, "kg", some "Pantry", false, none⟩], none,
         some ["Pantry"]⟩))).recipes = [] ∧
    (loadFromLocalStorage (some (some
        ⟨none, some [⟨"x", "Rice", 1, "kg", some "Pantry", false, none⟩], none,
         some ["Pantry"]⟩))).inventory
      = [⟨"x", "Rice", 1, "kg", some "Pantry", false, none⟩] ∧
    (loadFromLocalStorage (some (some
        ⟨none, some [⟨"x", "Rice", 1, "kg", some "Pantry", false, none⟩], none,
         some ["Pantry"]⟩))).customTags = defaultTags ∧
    (loadFromLocalStorage (some (some
        ⟨none, some [⟨"x", "Rice", 1, "kg", some "Pantry", false, none⟩], none,
         some ["Pantry"]⟩))).categories = ["Pantry"] := by
  have h := (load_defaults_independent (some (some
    ⟨none, some [⟨"x", "Rice", 1, "kg", some "Pantry", false, none⟩], none,
     some ["Pantry"]⟩))).2.1
    ⟨none, some [⟨"x", "Rice", 1, "kg", some "Pantry", false, none⟩], none, some ["Pantry"]⟩ rfl
  exact ⟨(load_defaults_independent none).1 (Or.inl rfl),
    (load_defaults_independent (some none)).1 (Or.inr rfl),
    h.1, h.2.1, h.2.2.1, h.2.2.2⟩

/-- Claim C9 (confirmed): at startup, a loaded aggregate with an empty
recipe list is discarded wholesale, whatever its inventory, tags or
categories hold, and replaced by the built-in `INITIAL_DATA` with two
sample recipes, two inventory items and the seed vocabularies; a loaded
aggregate with at least one recipe is kept as is. -/
theorem startup_seeding (saved : AppState) :
    (saved.recipes = [] → initialAppState saved = INITIAL_DATA) ∧
    (saved.recipes ≠ [] → initialAppState saved = saved) ∧
    (INITIAL_DATA.recipes.length = 2 ∧ INITIAL_DATA.inventory.length = 2 ∧
      INITIAL_DATA.customTags = defaultTags ∧
      INITIAL_DATA.categories = DEFAULT_CATEGORIES) := by
  refine ⟨?_, ?_, rfl, rfl, rfl, rfl⟩
  · intro h
    unfold initialAppState
    rw [if_neg (by simp [h])]
  · intro h
    unfold initialAppState
    rw [if_pos (by simpa [List.length_pos] using h)]

/-- Witness for C9: a persisted state with recipes deleted but inventory,
custom tags and categories still present is replaced wholesale by
`INITIAL_DATA` on reload. -/
theorem startup_seeding_witness :
    initialAppState
        (AppState.mk [] [⟨"x", "Leftover Rice", 1, "pcs", none, false, none⟩]
          ["Custom"] ["OnlyCat"])
      = INITIAL_DATA ∧
    (AppState.mk [] [⟨"x", "Leftover Rice", 1, "pcs", none, false, none⟩]
        ["Custom"] ["OnlyCat"]).inventory ≠ [] := by
  exact ⟨(startup_seeding
    (AppState.mk [] [⟨"x", "Leftover Rice", 1, "pcs", none, false, none⟩]
      ["Custom"] ["OnlyCat"])).1 rfl, by decide⟩

/-- Claim C10 (confirmed): every demand-netted line carries the lowercased
key computed from some planned recipe ingredient's name, so it differs
from that ingredient's spelling whenever lowercasing changes it, while
every line added by the replenishment stage carries the inventory item's
original name unchanged, with quantity 1. -/
theorem shoppingList_name_casing (plan : List PlanEntry) (recipes : List Recipe)
    (inv : List Ingredient) (repl : List String) :
    (∀ o ∈ nettedItems plan recipes inv,
      ∃ p ∈ plan, ∃ r, recipes.find? (fun x => decide (x.id = p.recipeId)) = some r ∧
        ∃ ing ∈ r.ingredients, o.name = normName ing.name ∧
          (normName ing.name ≠ ing.name → o.name ≠ ing.name)) ∧
    (∃ tail, shoppingList plan recipes inv repl = nettedItems plan recipes inv ++ tail ∧
      ∀ o ∈ tail, ∃ item ∈ inv, o.name = item.name ∧ o.amount = 1) := by
  constructor
  · intro o ho
    rw [nettedItems, List.mem_filterMap] at ho
    obtain ⟨kv, hkv, hfn⟩ := ho
    obtain ⟨ho_eq, -, -⟩ := nettingFn_eq_some hfn
    have hk : o.name = kv.1 := by rw [ho_eq]
    have hkey : kv.1 ∈ (aggregateDemand plan recipes).map Prod.fst :=
      List.mem_map.2 ⟨kv, hkv, rfl⟩
    obtain ⟨p, hp, r, hr, ing, hing, heq⟩ := key_mem_aggregateDemand hkey
    refine ⟨p, hp, r, hr, ing, hing, ?_, ?_⟩
    · rw [hk, heq]
    · intro hne
      rw [hk, heq]
      exact hne
  · obtain ⟨tail, ht, hp⟩ := replenish_foldl_extend repl inv (nettedItems plan recipes inv)
    refine ⟨tail, ht, ?_⟩
    intro o ho
    obtain ⟨item, hitem, ho_eq, -⟩ := hp o ho
    exact ⟨item, hitem, by rw [ho_eq]; rfl, by rw [ho_eq]; rfl⟩

/-- Witness for C10: a plan naming Tomato Sauce produces the lowercased
line tomato sauce, whose name differs from the recipe's spelling, and its
provenance is the planned ingredient. -/
theorem shoppingList_name_casing_witness :
    shoppingList [⟨"1", 1⟩]
        [{ id := "1", name := "Margherita Pizza", description := "",
           ingredients := [{ id := "i2", name := "Tomato Sauce", amount := 100, unit := "ml",
                             category := some "Pantry", untrackedAmount := false,
                             stockStatus := none, optional := false }],
           instructions := "", tags := [], prepTime := none }] [] []
      = [⟨"tomato sauce", 100, "ml", "Pantry"⟩] ∧
    (∃ p ∈ [(⟨"1", 1⟩ : PlanEntry)], ∃ r,
      [({ id := "1", name := "Margherita Pizza", description := "",
          ingredients := [{ id := "i2", name := "Tomato Sauce", amount := 100, unit := "ml",
                            category := some "Pantry", untrackedAmount := false,
                            stockStatus := none, optional := false }],
          instructions := "", tags := [], prepTime := none } : Recipe)].find?
            (fun x => decide (x.id = p.recipeId)) = some r ∧
      ∃ ing ∈ r.ingredients, ("tomato sauce" : String) = normName ing.name ∧
        (normName ing.name ≠ ing.name → ("tomato sauce" : String) ≠ ing.name)) ∧
    ("tomato sauce" : String) ≠ "Tomato Sauce" := by
  refine ⟨by decide, ?_, by decide⟩
  exact (shoppingList_name_casing [⟨"1", 1⟩]
    [{ id := "1", name := "Margherita Pizza", description := "",
       ingredients := [{ id := "i2", name := "Tomato Sauce", amount := 100, unit := "ml",
                         category := some "Pantry", untrackedAmount := false,
                         stockStatus := none, optional := false }],
       instructions := "", tags := [], prepTime := none }] [] []).1
    ⟨"tomato sauce", 100, "ml", "Pantry"⟩ (by decide)

end CulinaryCompanion
